import Mathlib

/-!
Verification of the goiscsi repository: validators (`utils.go`), and the
command-classification, command-building and output-parsing layer.  The
validators are embedded from `src/utils.go`; the client operations and the
session/node parsers are not present in the source tree (only their tests,
interface declarations and types are), so they are modelled from the spec,
as marked on each definition.

Go machine values are modelled with `Nat` (no overflow is reachable in the
embedded code paths: IPv4 octets are bounded by 255 and IPv6 groups by
0xFFFF by explicit checks mirroring the Go source).  Go `error` results are
modelled with `Except String Unit`, `nil` being `.ok ()`.  Go `[]byte` /
`string` inputs are modelled with `String`.
-/

namespace Goiscsi

/-- ASCII whitespace used to model `strings.TrimSpace` (the inputs handled
by this library are ASCII). -/
def trimSpaceChar (c : Char) : Bool :=
  c = ' ' || c = '\t' || c = '\n' || c = '\x0b' || c = '\x0c' || c = '\r'

/-- The RE2 character class `\s`, i.e. `[\t\n\f\r ]`. -/
def reSpaceChar (c : Char) : Bool :=
  c = ' ' || c = '\t' || c = '\n' || c = '\x0c' || c = '\r'

/-- Model of `strings.TrimSpace` on a character list. -/
def goTrimList (cs : List Char) : List Char :=
  List.reverse (List.dropWhile trimSpaceChar (List.reverse (List.dropWhile trimSpaceChar cs)))

/-- Model of `strings.TrimSpace`. -/
def goTrim (s : String) : String :=
  String.mk (goTrimList s.data)

/-- Split a character list at every occurrence of `sep`, like `strings.Split`
with a one-character separator. -/
def splitChar (sep : Char) : List Char → List (List Char)
  | [] => [[]]
  | c :: rest =>
    let r := splitChar sep rest
    if c = sep then [] :: r
    else
      match r with
      | h :: t => (c :: h) :: t
      | [] => [[c]]

/-- The lines of a string, split on the newline character, like
`strings.Split(s, "\n")`. -/
def linesOf (s : String) : List String :=
  (splitChar '\n' s.data).map String.mk

/-- Split a character list at the first occurrence of the pattern `pat`,
returning the text before and after it, like `strings.SplitN(s, pat, 2)`
when the pattern occurs. -/
def splitOnFirstSeq (pat : List Char) : List Char → Option (List Char × List Char)
  | [] => none
  | c :: rest =>
    if pat.isPrefixOf (c :: rest) then some ([], List.drop pat.length (c :: rest))
    else
      match splitOnFirstSeq pat rest with
      | some (k, v) => some (c :: k, v)
      | none => none

/-! ## Model of `net.ParseIP`

`src/utils.go` calls `net.ParseIP`; the standard-library parser is embedded
here: the first of `.`, `:`, `%` occurring in the string selects the IPv4
parser, the IPv6 parser, or failure, and the selected parser follows the
field-by-field algorithm of the Go standard library (decimal octets
0..255 without leading zeros for IPv4; colon-separated hex groups bounded
by 0xFFFF, a single optional `::`, and an optional embedded IPv4 in the
last two groups for IPv6; zoned addresses are rejected by `net.ParseIP`). -/

def isHexDigitChar (c : Char) : Bool :=
  c.isDigit || ('a' ≤ c && c ≤ 'f') || ('A' ≤ c && c ≤ 'F')

def hexDigitVal (c : Char) : Nat :=
  if c.isDigit then c.toNat - '0'.toNat
  else if 'a' ≤ c && c ≤ 'f' then c.toNat - 'a'.toNat + 10
  else c.toNat - 'A'.toNat + 10

/-- One IPv4 dotted-decimal field: nonempty, all digits, no leading zero,
value at most 255. -/
def ipv4Field (cs : List Char) : Option Nat :=
  match cs with
  | [] => none
  | '0' :: _ :: _ => none
  | _ =>
    if cs.all Char.isDigit then
      let v := cs.foldl (fun a c => a * 10 + (c.toNat - '0'.toNat)) 0
      if v ≤ 255 then some v else none
    else none

/-- Model of the Go standard library IPv4 parser: exactly four
dotted-decimal fields. -/
def goParseIPv4 (cs : List Char) : Option (List Nat) :=
  match (splitChar '.' cs).mapM ipv4Field with
  | some l => if l.length = 4 then some l else none
  | none => none

/-- One IPv6 hex group accumulated digit by digit; values of 0x10000 or
more are rejected, mirroring the overflow check of the Go parser. -/
def v6GroupVal : Nat → List Char → Option Nat
  | acc, [] => some acc
  | acc, c :: t =>
    let a := acc * 16 + hexDigitVal c
    if a > 65535 then none else v6GroupVal a t

/-- Finalize an IPv6 parse: expand the `::` ellipsis (if any) with zero
bytes so that exactly 16 bytes result. -/
def v6Finish (filled : Nat) (bytes : List Nat) (ell : Option Nat) : Option (List Nat) :=
  if filled < 16 then
    match ell with
    | none => none
    | some e => some (bytes.take e ++ List.replicate (16 - filled) 0 ++ bytes.drop e)
  else
    match ell with
    | none => some bytes
    | some _ => none

/-- The field loop of the Go IPv6 parser.  `fuel` bounds the recursion and
decreases with the input, which shrinks on every iteration. -/
def v6Loop : Nat → List Char → Nat → List Nat → Option Nat → Option (List Nat)
  | 0, _, _, _, _ => none
  | fuel + 1, cs, filled, bytes, ell =>
    if 16 ≤ filled then
      if cs.isEmpty then v6Finish filled bytes ell else none
    else
      let run := cs.takeWhile isHexDigitChar
      let rest := cs.drop run.length
      if run.isEmpty then none
      else
        match rest with
        | '.' :: _ =>
          if (ell.isNone && filled ≠ 12) || 16 < filled + 4 then none
          else
            match goParseIPv4 cs with
            | some ds => v6Finish (filled + 4) (bytes ++ ds) ell
            | none => none
        | _ =>
          match v6GroupVal 0 run with
          | none => none
          | some v =>
            let bytes2 := bytes ++ [v / 256, v % 256]
            let filled2 := filled + 2
            match rest, ell with
            | [], _ => v6Finish filled2 bytes2 ell
            | [':'], _ => none
            | ':' :: ':' :: _, some _ => none
            | ':' :: ':' :: rest3, none =>
              if rest3.isEmpty then v6Finish filled2 bytes2 (some filled2)
              else v6Loop fuel rest3 filled2 bytes2 (some filled2)
            | ':' :: rest2, _ => v6Loop fuel rest2 filled2 bytes2 ell
            | _, _ => none

/-- Model of the Go standard library IPv6 parser, as used by `net.ParseIP`
(which additionally rejects zoned addresses, hence the `%` check). -/
def goParseIPv6 (cs : List Char) : Option (List Nat) :=
  if cs.contains '%' then none
  else
    match cs with
    | ':' :: ':' :: rest =>
      if rest.isEmpty then some (List.replicate 16 0)
      else v6Loop (rest.length + 1) rest 0 [] (some 0)
    | _ => v6Loop (cs.length + 1) cs 0 [] none

/-- The dispatch loop of `net.ParseIP`: the first special character decides
between the IPv4 and the IPv6 parser. -/
def classifyIPKind : List Char → Option Bool
  | [] => none
  | c :: rest =>
    if c = '.' then some true
    else if c = ':' then some false
    else if c = '%' then none
    else classifyIPKind rest

/-- Model of `net.ParseIP`: `none` models a `nil` result. -/
def goParseIP (s : String) : Option (List Nat) :=
  match classifyIPKind s.data with
  | some true => goParseIPv4 s.data
  | some false => goParseIPv6 s.data
  | none => none

/-! ## The portal regular expression of `validateIPAddress`

`src/utils.go` line 63 matches against
`^(([0-9]|[1-9][0-9]|1[0-9]{2}|2[0-4][0-9]|25[0-5])\.){3}([0-9]|[1-9][0-9]|1[0-9]{2}|2[0-4][0-9]|25[0-5]):[0-9]+$`.
The pattern is fully anchored, octets are digit-only and the port is
digit-only, so a string matches exactly when splitting on `.` yields four
components, the last of which splits on `:` into an octet and a nonempty
digit string; the octet alternation is transcribed case by case. -/

/-- The octet alternation
`[0-9]|[1-9][0-9]|1[0-9]{2}|2[0-4][0-9]|25[0-5]` of the portal pattern. -/
def isOctetStr (cs : List Char) : Bool :=
  match cs with
  | [c] => c.isDigit
  | [c1, c2] => ('1' ≤ c1 && c1 ≤ '9') && c2.isDigit
  | [c1, c2, c3] =>
    (c1 = '1' && c2.isDigit && c3.isDigit) ||
    (c1 = '2' && ('0' ≤ c2 && c2 ≤ '4') && c3.isDigit) ||
    (c1 = '2' && c2 = '5' && ('0' ≤ c3 && c3 ≤ '5'))
  | _ => false

/-- Whether the string matches the anchored IPv4-with-port portal pattern
of `validateIPAddress`. -/
def portalPatternMatch (s : String) : Bool :=
  match splitChar '.' s.data with
  | [a, b, c, rest] =>
    isOctetStr a && isOctetStr b && isOctetStr c &&
      (match splitChar ':' rest with
       | [d, p] => isOctetStr d && !p.isEmpty && p.all Char.isDigit
       | _ => false)
  | _ => false

/-- Embedding of `validateIPAddress` (`src/utils.go` lines 53-73): the
address is accepted when `net.ParseIP` parses it or when it matches the
portal pattern; otherwise the invalid-address error is returned. -/
def validateIPAddress (ip : String) : Except String Unit :=
  let isValidIP := !(goParseIP ip).isNone
  let isValidPortal := portalPatternMatch ip
  if !isValidIP && !isValidPortal then Except.error "error invalid IP or portal address"
  else Except.ok ()

/-! ## The IQN regular expression of `validateIQN`

`src/utils.go` line 76 matches against
`iqn\.\d{4}-\d{2}\.([[:alnum:]-.]+)(:[^,;*&$|\s]+)$`, anchored only at the
end.  `MatchString` succeeds when some suffix of the input matches the
whole pattern body.  Within the body, the domain class excludes `:`, so
the literal `:` of the pattern must match the first `:` after the domain
start and greedy scanning is equivalent to the backtracking semantics. -/

/-- The domain character class `[[:alnum:]-.]`. -/
def domClass (c : Char) : Bool :=
  c.isAlphanum || c = '-' || c = '.'

/-- The suffix character class `[^,;*&$|\s]`. -/
def sufClass (c : Char) : Bool :=
  !(c = ',' || c = ';' || c = '*' || c = '&' || c = '$' || c = '|' || reSpaceChar c)

/-- Match the literal header `iqn\.\d{4}-\d{2}\.` of the IQN pattern,
returning the remaining characters on success. -/
def iqnHeader : List Char → Option (List Char)
  | 'i' :: 'q' :: 'n' :: '.' :: y1 :: y2 :: y3 :: y4 :: '-' :: m1 :: m2 :: '.' :: rest =>
    if y1.isDigit && y2.isDigit && y3.isDigit && y4.isDigit && m1.isDigit && m2.isDigit then
      some rest
    else none
  | _ => none

/-- Match the tail `([[:alnum:]-.]+)(:[^,;*&$|\s]+)$` of the IQN pattern:
a nonempty domain run, a colon, and a nonempty suffix reaching the end. -/
def iqnTail (cs : List Char) : Bool :=
  let dom := cs.takeWhile domClass
  match cs.dropWhile domClass with
  | ':' :: suf => !dom.isEmpty && !suf.isEmpty && suf.all sufClass
  | _ => false

/-- Match the whole IQN pattern body at the beginning of the list. -/
def iqnBody (cs : List Char) : Bool :=
  match iqnHeader cs with
  | some rest => iqnTail rest
  | none => false

/-- Unanchored search: the pattern body may start at any position
(`MatchString` semantics; the body is end-anchored by construction). -/
def iqnAnywhere : List Char → Bool
  | [] => false
  | c :: rest => iqnBody (c :: rest) || iqnAnywhere rest

/-- Whether the `iqn` year-month header occurs at the head of the list. -/
def yearMonthAt (cs : List Char) : Bool :=
  (iqnHeader cs).isSome

/-- Whether the `iqn` year-month header `iqn.YYYY-MM.` occurs anywhere in
the list. -/
def yearMonthAnywhere : List Char → Bool
  | [] => false
  | c :: rest => yearMonthAt (c :: rest) || yearMonthAnywhere rest

/-- Embedding of `validateIQN` (`src/utils.go` lines 75-82). -/
def validateIQN (iqn : String) : Except String Unit :=
  if !(iqnAnywhere iqn.data) then Except.error "error invalid IQN"
  else Except.ok ()

/-! ## Data model (`src/goiscsi_types.go`) -/

/-- Embedding of `ISCSITarget` (`src/goiscsi_types.go`). -/
structure ISCSITarget where
  Portal : String
  GroupTag : String
  Target : String
deriving DecidableEq, Repr

/-- Embedding of `ISCSISession` (`src/goiscsi_types.go`); the session,
connection and transport state types are string newtypes in the source and
are modelled as `String`. -/
structure ISCSISession where
  Target : String
  Portal : String
  SID : String
  IfaceTransport : String
  IfaceInitiatorname : String
  IfaceIPaddress : String
  ISCSISessionState : String
  ISCSIConnectionState : String
  Username : String
  Password : String
  UsernameIn : String
  PasswordIn : String
deriving DecidableEq, Repr

/-- Embedding of `ISCSINode` (`src/goiscsi_types.go`); the Go
`map[string]string` field store is modelled as an association list in
which the most recent write for a key comes first. -/
structure ISCSINode where
  Target : String
  Portal : String
  Fields : List (String × String)
deriving DecidableEq, Repr

/-- The session record with every field empty. -/
def emptySession : ISCSISession :=
  ⟨"", "", "", "", "", "", "", "", "", "", "", ""⟩

/-! ## Key/value splitting and command building

The functions of this section are not present under `src/` (only their
tests are); they are modelled from the spec. -/

/-- Modelled from the spec: `fieldKeyValue` splits a line at the first
occurrence of the delimiter (`strings.SplitN(s, delim, 2)`), trimming
surrounding whitespace from both parts, so values may themselves contain
the delimiter; a line without the delimiter yields the trimmed line as the
key and an empty value.  The delimiters used by the parsers are `":"` and
`"="`. -/
def fieldKeyValue (s delim : String) : String × String :=
  match splitOnFirstSeq delim.data s.data with
  | some (k, v) => (String.mk (goTrimList k), String.mk (goTrimList v))
  | none => (String.mk (goTrimList s.data), "")

/-- The `chrootDirectory` option key (`src/README.md`). -/
def ChrootDirectory : String := "chrootDirectory"

/-- Look a key up in a string-keyed option map, modelled as an association
list; `none` models an absent key. -/
def lookupOption (opts : List (String × String)) (k : String) : Option String :=
  (opts.find? (fun kv => kv.1 == k)).map (fun kv => kv.2)

/-- Modelled from the spec: `buildISCSICommand` passes the argument vector
through unchanged unless the option map holds a non-empty chroot
directory, in which case the chroot executable name and the directory are
prepended. -/
def buildISCSICommand (opts : List (String × String)) (cmd : List String) : List String :=
  match lookupOption opts ChrootDirectory with
  | some d => if d = "" then cmd else "chroot" :: d :: cmd
  | none => cmd

/-! ## Session parser

Modelled from the spec (`sessionParser.Parse` is not under `src/`): a
line-oriented state machine whose accumulator holds the flushed records
and the currently open record.  A record-start marker line, prefixed by
the literal token `Target:`, carries the Target/Portal pair of the new
record; within a record, `key: value` lines populate the named session
fields through a fixed key-to-field mapping, unrecognized keys being
ignored; a field line with no open record is ignored; end of input
flushes the last open record. -/

/-- Recognize a session record-start marker line and extract the
Target/Portal pair it identifies. -/
def sessionMarkerParse (l : String) : Option (String × String) :=
  let t := goTrimList l.data
  if List.isPrefixOf ("Target:".data) t then
    let rest := t.drop ("Target:".data.length)
    match splitOnFirstSeq (" Portal:".data) rest with
    | some (tg, pt) => some (String.mk (goTrimList tg), String.mk (goTrimList pt))
    | none => some (String.mk (goTrimList rest), "")
  else none

/-- The fixed key-to-field mapping of the session parser; unrecognized
keys leave the record unchanged. -/
def applySessionField (s : ISCSISession) (key value : String) : ISCSISession :=
  if key = "SID" then { s with SID := value }
  else if key = "Iface Transport" then { s with IfaceTransport := value }
  else if key = "Iface Initiatorname" then { s with IfaceInitiatorname := value }
  else if key = "Iface IPaddress" then { s with IfaceIPaddress := value }
  else if key = "iSCSI Session State" then { s with ISCSISessionState := value }
  else if key = "iSCSI Connection State" then { s with ISCSIConnectionState := value }
  else if key = "username" then { s with Username := value }
  else if key = "password" then { s with Password := value }
  else if key = "username_in" then { s with UsernameIn := value }
  else if key = "password_in" then { s with PasswordIn := value }
  else s

/-- One step of the session parser state machine. -/
def sessionStep (acc : List ISCSISession × Option ISCSISession) (l : String) :
    List ISCSISession × Option ISCSISession :=
  match sessionMarkerParse l with
  | some (t, p) =>
    (acc.1 ++ acc.2.toList, some { emptySession with Target := t, Portal := p })
  | none =>
    match acc.2 with
    | none => acc
    | some cur =>
      let kv := fieldKeyValue l ":"
      (acc.1, some (applySessionField cur kv.1 kv.2))

/-- Modelled from the spec: `sessionParser.Parse`, a fold of the state
machine over the lines of the input, flushing the last open record at end
of input. -/
def sessionParserParse (data : String) : List ISCSISession :=
  let r := (linesOf data).foldl sessionStep ([], none)
  r.1 ++ r.2.toList

/-! ## Node parser

Modelled from the spec (`nodeParser.Parse` is not under `src/`): the same
state-machine shape with a distinct node-header marker; every recognized
`key = value` line is captured into `Fields` verbatim (last write wins),
and the `Target`/`Portal` convenience attributes are synthesized from the
well-known keys `node.name` and `node.conn[0].address`/`node.conn[0].port`
when the record is flushed.  Lines that do not parse as `key = value` are
ignored. -/

/-- Recognize a node record-start marker line. -/
def nodeMarkerLine (l : String) : Bool :=
  List.isPrefixOf ("# BEGIN RECORD".data) (goTrimList l.data)

/-- Look a key up among a record's captured fields (most recent write
first, so the first hit is the last write). -/
def nodeLookup (fields : List (String × String)) (k : String) : Option String :=
  (fields.find? (fun kv => kv.1 == k)).map (fun kv => kv.2)

/-- Synthesize the node's Portal from the well-known address and port
keys. -/
def nodePortal (fields : List (String × String)) : String :=
  match nodeLookup fields "node.conn[0].address", nodeLookup fields "node.conn[0].port" with
  | some a, some p => a ++ ":" ++ p
  | some a, none => a
  | none, _ => ""

/-- Turn a record's captured fields into an `ISCSINode`, synthesizing the
Target/Portal convenience attributes. -/
def materializeNode (fields : List (String × String)) : ISCSINode :=
  { Target := (nodeLookup fields "node.name").getD ""
    Portal := nodePortal fields
    Fields := fields }

/-- One step of the node parser state machine. -/
def nodeStep (acc : List ISCSINode × Option (List (String × String))) (l : String) :
    List ISCSINode × Option (List (String × String)) :=
  if nodeMarkerLine l then
    (acc.1 ++ (acc.2.map materializeNode).toList, some [])
  else
    match acc.2 with
    | none => acc
    | some fields =>
      match splitOnFirstSeq ['='] l.data with
      | none => acc
      | some (k, v) =>
        (acc.1, some ((String.mk (goTrimList k), String.mk (goTrimList v)) :: fields))

/-- Modelled from the spec: `nodeParser.Parse`. -/
def nodeParserParse (data : String) : List ISCSINode :=
  let r := (linesOf data).foldl nodeStep ([], none)
  r.1 ++ (r.2.map materializeNode).toList

/-! ## Exit-code classification and client operations

Modelled from the spec (the Linux client implementation is not under
`src/`): the result of the injected command-execution collaborator is
either no error, a process exit error with a numeric code, or another
execution failure carrying a message.  Each client operation validates its
inputs first and only then consults the collaborator's result; benign exit
codes are absorbed into success, other errors are propagated with their
message preserved verbatim. -/

/-- The error component of a command execution, as seen through the
injected `runCommand` collaborator. -/
inductive CmdErr where
  | exit (code : Nat)
  | failure (msg : String)
deriving DecidableEq, Repr

/-- Classify an execution result against a list of benign exit codes: no
error and benign exit codes are success; other exit codes carry the Go
`exec.ExitError` message; other failures are propagated verbatim. -/
def classifyExit (benign : List Nat) : Option CmdErr → Except String Unit
  | none => Except.ok ()
  | some (CmdErr.exit c) =>
    if benign.contains c then Except.ok ()
    else Except.error ("exit status " ++ toString c)
  | some (CmdErr.failure m) => Except.error m

/-- Benign exit codes of login/logout: 15 means the session already
exists (login) or is already logged out (logout). -/
def loginBenignExitCodes : List Nat := [15]

/-- Benign exit codes of node deletion: 21 means no objects found. -/
def deleteNodeBenignExitCodes : List Nat := [21]

/-- Benign exit codes of discovery: 21 means no records found. -/
def discoveryBenignExitCodes : List Nat := [21]

/-- Validate a target's portal address and IQN, in that order, returning
the first validation error. -/
def validateTarget (t : ISCSITarget) : Except String Unit :=
  match validateIPAddress t.Portal with
  | Except.error e => Except.error e
  | Except.ok _ => validateIQN t.Target

/-- Modelled from the spec: `performLogin` validates the target and then
classifies the execution result, absorbing the benign already-logged-in
exit code. -/
def performLogin (t : ISCSITarget) (r : Option CmdErr) : Except String Unit :=
  match validateTarget t with
  | Except.error e => Except.error e
  | Except.ok _ => classifyExit loginBenignExitCodes r

/-- Modelled from the spec: `performLogout`, symmetric to `performLogin`
with the benign already-logged-out exit code. -/
def performLogout (t : ISCSITarget) (r : Option CmdErr) : Except String Unit :=
  match validateTarget t with
  | Except.error e => Except.error e
  | Except.ok _ => classifyExit loginBenignExitCodes r

/-- Modelled from the spec: `DeleteNode` validates the target and absorbs
the benign no-objects-found exit code. -/
def DeleteNode (t : ISCSITarget) (r : Option CmdErr) : Except String Unit :=
  match validateTarget t with
  | Except.error e => Except.error e
  | Except.ok _ => classifyExit deleteNodeBenignExitCodes r

/-- Modelled from the spec: `CreateOrUpdateNode` validates the target
first; the subsequent node create/update commands classify their result
with the no-objects-found code benign. -/
def CreateOrUpdateNode (t : ISCSITarget) (_opts : List (String × String))
    (r : Option CmdErr) : Except String Unit :=
  match validateTarget t with
  | Except.error e => Except.error e
  | Except.ok _ => classifyExit deleteNodeBenignExitCodes r

/-- Parse one line of discovery output, of the shape
`portal,groupTag target`. -/
def parseDiscoveryLine (l : String) : Option ISCSITarget :=
  match splitOnFirstSeq [' '] (goTrimList l.data) with
  | some (pp, tgt) =>
    (match splitOnFirstSeq [','] pp with
     | some (p, g) => some ⟨String.mk p, String.mk g, String.mk tgt⟩
     | none => some ⟨String.mk pp, "", String.mk tgt⟩)
  | none => none

/-- Parse the discovery output into targets, skipping lines that do not
have the expected shape. -/
def parseDiscoveryOutput (out : String) : List ISCSITarget :=
  (linesOf out).filterMap parseDiscoveryLine

/-- Modelled from the spec: `discoverTargets` validates the address and
then classifies the execution result, the no-records exit code yielding an
empty target list and success yielding the parsed output. -/
def discoverTargets (address : String) (r : Option CmdErr) (out : String) :
    Except String (List ISCSITarget) :=
  match validateIPAddress address with
  | Except.error e => Except.error e
  | Except.ok _ =>
    match r with
    | none => Except.ok (parseDiscoveryOutput out)
    | some (CmdErr.exit c) =>
      if discoveryBenignExitCodes.contains c then Except.ok []
      else Except.error ("exit status " ++ toString c)
    | some (CmdErr.failure m) => Except.error m

/-! ## Helper lemmas -/

theorem takeWhile_append_of_all {p : Char → Bool} :
    ∀ (l : List Char) (c : Char) (r : List Char), l.all p = true → p c = false →
      (l ++ c :: r).takeWhile p = l := by
  intro l c r hl hc
  induction l with
  | nil => simp [List.takeWhile_cons, hc]
  | cons a l ih =>
    simp only [List.all_cons, Bool.and_eq_true] at hl
    simp [List.takeWhile_cons, hl.1, ih hl.2]

theorem dropWhile_append_of_all {p : Char → Bool} :
    ∀ (l : List Char) (c : Char) (r : List Char), l.all p = true → p c = false →
      (l ++ c :: r).dropWhile p = c :: r := by
  intro l c r hl hc
  induction l with
  | nil => simp [List.dropWhile_cons, hc]
  | cons a l ih =>
    simp only [List.all_cons, Bool.and_eq_true] at hl
    simp [List.dropWhile_cons, hl.1, ih hl.2]

theorem splitOnFirstSeq_singleton (c : Char) :
    ∀ (pre post : List Char), pre.contains c = false →
      splitOnFirstSeq [c] (pre ++ c :: post) = some (pre, post) := by
  intro pre
  induction pre with
  | nil =>
    intro post _
    simp [splitOnFirstSeq, List.isPrefixOf]
  | cons a pre ih =>
    intro post h
    simp only [List.contains_cons, Bool.or_eq_false_iff] at h
    have hca : (c == a) = false := by
      cases hx : c == a
      · rfl
      · exact absurd hx (by simp [h.1])
    simp [splitOnFirstSeq, List.isPrefixOf, hca, ih post h.2]

theorem iqnAnywhere_append_left (p s : List Char) (h : iqnAnywhere s = true) :
    iqnAnywhere (p ++ s) = true := by
  induction p with
  | nil => simpa using h
  | cons c p ih => simp [iqnAnywhere, ih]

theorem iqnAnywhere_yearMonth :
    ∀ cs : List Char, iqnAnywhere cs = true → yearMonthAnywhere cs = true := by
  intro cs
  induction cs with
  | nil => intro h; exact absurd h (by simp [iqnAnywhere])
  | cons c r ih =>
    intro h
    simp only [iqnAnywhere, Bool.or_eq_true] at h
    rcases h with hb | hr
    · have hsome : (iqnHeader (c :: r)).isSome = true := by
        unfold iqnBody at hb
        cases hh : iqnHeader (c :: r)
        · rw [hh] at hb; exact absurd hb (by simp)
        · simp
      simp [yearMonthAnywhere, yearMonthAt, hsome]
    · simp [yearMonthAnywhere, ih hr]

theorem sessionFold_no_marker :
    ∀ (ls : List String) (res : List ISCSISession),
      (∀ l ∈ ls, sessionMarkerParse l = none) →
      ls.foldl sessionStep (res, none) = (res, none) := by
  intro ls
  induction ls with
  | nil => intro res _; rfl
  | cons l ls ih =>
    intro res h
    have hstep : sessionStep (res, none) l = (res, none) := by
      simp [sessionStep, h l (by simp)]
    rw [List.foldl_cons, hstep]
    exact ih res (fun x hx => h x (by simp [hx]))

theorem nodeFold_no_marker :
    ∀ (ls : List String) (res : List ISCSINode),
      (∀ l ∈ ls, nodeMarkerLine l = false) →
      ls.foldl nodeStep (res, none) = (res, none) := by
  intro ls
  induction ls with
  | nil => intro res _; rfl
  | cons l ls ih =>
    intro res h
    have hstep : nodeStep (res, none) l = (res, none) := by
      simp [nodeStep, h l (by simp)]
    rw [List.foldl_cons, hstep]
    exact ih res (fun x hx => h x (by simp [hx]))

/-! ## Claims -/

/-- C1: exit-code classification treats documented benign codes as
success: for a target that passes validation, `performLogin` and
`performLogout` return no error when the external command fails with exit
code 15, `DeleteNode` returns no error when the command fails with exit
code 21, and a second login answered with "already logged in" (exit 15)
classifies exactly as a first, successful one. -/
theorem benign_exit_codes_are_success (t : ISCSITarget)
    (h : validateTarget t = Except.ok ()) :
    performLogin t (some (CmdErr.exit 15)) = Except.ok () ∧
    performLogout t (some (CmdErr.exit 15)) = Except.ok () ∧
    DeleteNode t (some (CmdErr.exit 21)) = Except.ok () ∧
    performLogin t (some (CmdErr.exit 15)) = performLogin t none := by
  simp [performLogin, performLogout, DeleteNode, h, classifyExit,
    loginBenignExitCodes, deleteNodeBenignExitCodes]

/-- Witness for C1 at a concrete valid target. -/
theorem benign_exit_codes_are_success_witness :
    performLogin ⟨"1.1.1.1", "0", "iqn.1992-04.com.emc:600009700bcbb70e3287017400000001"⟩
        (some (CmdErr.exit 15)) = Except.ok () ∧
    DeleteNode ⟨"1.1.1.1", "0", "iqn.1992-04.com.emc:600009700bcbb70e3287017400000001"⟩
        (some (CmdErr.exit 21)) = Except.ok () := by
  have h := benign_exit_codes_are_success
    ⟨"1.1.1.1", "0", "iqn.1992-04.com.emc:600009700bcbb70e3287017400000001"⟩ (by rfl)
  exact ⟨h.1, h.2.2.1⟩

/-- C2: the parsers are total functions of the raw input (they are plain
Lean functions, so they return on every byte sequence, never raising), and
on wholly invalid input — input in which no line is a record-start
marker — both return the empty sequence of records. -/
theorem parsers_empty_on_invalid (data : String)
    (hs : ∀ l ∈ linesOf data, sessionMarkerParse l = none)
    (hn : ∀ l ∈ linesOf data, nodeMarkerLine l = false) :
    sessionParserParse data = [] ∧ nodeParserParse data = [] := by
  constructor
  · unfold sessionParserParse
    rw [sessionFold_no_marker (linesOf data) [] hs]
    rfl
  · unfold nodeParserParse
    rw [nodeFold_no_marker (linesOf data) [] hn]
    rfl

/-- Witness for C2 at a concrete wholly invalid input. -/
theorem parsers_empty_on_invalid_witness :
    sessionParserParse "totally invalid\nnothing here" = [] ∧
    nodeParserParse "totally invalid\nnothing here" = [] :=
  parsers_empty_on_invalid "totally invalid\nnothing here" (by decide) (by decide)

/-- C3: `validateIPAddress` accepts exactly the strings that are a bare IP
literal (parsed by `net.ParseIP`) or match the IPv4-with-port portal
pattern, and returns the invalid-address error on every other string. -/
theorem validateIPAddress_classification (ip : String) :
    validateIPAddress ip =
      (if (goParseIP ip).isSome || portalPatternMatch ip then Except.ok ()
       else Except.error "error invalid IP or portal address") := by
  unfold validateIPAddress
  cases h : goParseIP ip <;> cases hp : portalPatternMatch ip <;> simp [h, hp]

/-- C4 counterexample: the claim admits `iqn.YYYY-MM.domain` with the
`:suffix` omitted as well-formed, but `validateIQN` rejects it — the
suffix group of the pattern is not optional. -/
theorem validateIQN_rejects_suffixless :
    validateIQN "iqn.2001-04.com.example" = Except.error "error invalid IQN" := by
  rfl

/-- C4 (amended): the colon suffix is mandatory.  Every string of the
shape `iqn.YYYY-MM.domain:suffix` — 4-digit year, 2-digit month, nonempty
domain over the alphanumeric/`-`/`.` class, nonempty suffix without
dangerous characters — is accepted, and every string in which the
year-month header `iqn.YYYY-MM.` does not occur is rejected with the
invalid-IQN error. -/
theorem validateIQN_amended :
    (∀ (y1 y2 y3 y4 m1 m2 : Char) (dom suf : List Char),
      y1.isDigit = true → y2.isDigit = true → y3.isDigit = true → y4.isDigit = true →
      m1.isDigit = true → m2.isDigit = true →
      dom ≠ [] → dom.all domClass = true → suf ≠ [] → suf.all sufClass = true →
      validateIQN (String.mk ('i' :: 'q' :: 'n' :: '.' :: y1 :: y2 :: y3 :: y4 ::
        '-' :: m1 :: m2 :: '.' :: (dom ++ ':' :: suf))) = Except.ok ()) ∧
    (∀ s : String, yearMonthAnywhere s.data = false →
      validateIQN s = Except.error "error invalid IQN") := by
  constructor
  · intro y1 y2 y3 y4 m1 m2 dom suf h1 h2 h3 h4 h5 h6 hd hdall hs hsall
    have hcolon : domClass ':' = false := by decide
    have htw := takeWhile_append_of_all dom ':' suf hdall hcolon
    have hdw := dropWhile_append_of_all dom ':' suf hdall hcolon
    have hde : dom.isEmpty = false := by
      cases dom
      · exact absurd rfl hd
      · rfl
    have hse : suf.isEmpty = false := by
      cases suf
      · exact absurd rfl hs
      · rfl
    simp [validateIQN, iqnAnywhere, iqnBody, iqnHeader, h1, h2, h3, h4, h5, h6,
      iqnTail, htw, hdw, hde, hse, hsall]
  · intro s h
    have hiqn : iqnAnywhere s.data = false := by
      cases hq : iqnAnywhere s.data
      · rfl
      · exact absurd (iqnAnywhere_yearMonth s.data hq) (by simp [h])
    simp [validateIQN, hiqn]

/-- Witness for C4's amended theorem: a concrete well-formed suffixed IQN
is accepted and a concrete header-free string is rejected. -/
theorem validateIQN_amended_witness :
    validateIQN (String.mk ('i' :: 'q' :: 'n' :: '.' :: '2' :: '0' :: '0' :: '1' ::
      '-' :: '0' :: '4' :: '.' :: (['c', 'o', 'm'] ++ ':' :: ['x']))) = Except.ok () ∧
    validateIQN "no qualified name here" = Except.error "error invalid IQN" :=
  ⟨validateIQN_amended.1 '2' '0' '0' '1' '0' '4' ['c', 'o', 'm'] ['x']
      (by decide) (by decide) (by decide) (by decide) (by decide) (by decide)
      (by decide) (by decide) (by decide) (by decide),
    validateIQN_amended.2 "no qualified name here" (by decide)⟩

/-- C5: the command builder passes the argument vector through unchanged
when the option map has no chroot-directory key, prepends `chroot` and the
directory when it holds a non-empty one, and consequently the output
length is the input length or the input length plus two. -/
theorem buildISCSICommand_characterization (opts : List (String × String))
    (cmd : List String) :
    (lookupOption opts ChrootDirectory = none → buildISCSICommand opts cmd = cmd) ∧
    (∀ d, lookupOption opts ChrootDirectory = some d → d ≠ "" →
      buildISCSICommand opts cmd = "chroot" :: d :: cmd) ∧
    ((buildISCSICommand opts cmd).length = cmd.length ∨
      (buildISCSICommand opts cmd).length = cmd.length + 2) := by
  refine ⟨fun h => by simp [buildISCSICommand, h], fun d hd hne => by
    simp [buildISCSICommand, hd, hne], ?_⟩
  unfold buildISCSICommand
  cases h : lookupOption opts ChrootDirectory with
  | none => left; rfl
  | some d =>
    by_cases hde : d = ""
    · left; simp [hde]
    · right; simp [hde]

/-- Witness for C5 at a concrete option map and argument vector. -/
theorem buildISCSICommand_characterization_witness :
    buildISCSICommand [(ChrootDirectory, "/test")] ["/bin/ls"] =
      ["chroot", "/test", "/bin/ls"] ∧
    buildISCSICommand [("other", "x")] ["/bin/ls"] = ["/bin/ls"] :=
  ⟨(buildISCSICommand_characterization [(ChrootDirectory, "/test")] ["/bin/ls"]).2.1
      "/test" (by rfl) (by decide),
    (buildISCSICommand_characterization [("other", "x")] ["/bin/ls"]).1 (by rfl)⟩

/-- C7: `fieldKeyValue` splits at the first occurrence of the delimiter,
so values may themselves contain the delimiter, and on the two documented
inputs yields exactly the documented key/value pairs. -/
theorem fieldKeyValue_first_occurrence :
    (∀ (pre post : String) (c : Char), pre.data.contains c = false →
      fieldKeyValue (pre ++ String.mk [c] ++ post) (String.mk [c]) =
        (goTrim pre, goTrim post)) ∧
    fieldKeyValue "node.name = iqn.X" "=" = ("node.name", "iqn.X") ∧
    fieldKeyValue "iSCSI Connection State: LOGGED IN" ":" =
      ("iSCSI Connection State", "LOGGED IN") := by
  refine ⟨?_, by decide, by decide⟩
  intro pre post c h
  have hdata : (pre ++ String.mk [c] ++ post).data = pre.data ++ c :: post.data := by
    simp [String.data_append]
  unfold fieldKeyValue
  rw [hdata]
  rw [show (String.mk [c]).data = [c] from rfl]
  rw [splitOnFirstSeq_singleton c pre.data post.data h]
  rfl

/-- Witness for C7's first-occurrence part: the value keeps a later copy
of the delimiter. -/
theorem fieldKeyValue_first_occurrence_witness :
    fieldKeyValue ("a" ++ String.mk ['='] ++ "b = c") (String.mk ['=']) =
      (goTrim "a", goTrim "b = c") :=
  fieldKeyValue_first_occurrence.1 "a" "b = c" '=' (by decide)

/-- C8: every client operation taking a Target or address returns its
validation error immediately, independently of whatever the
command-execution collaborator would return. -/
theorem validation_precedes_execution (t : ISCSITarget)
    (opts : List (String × String)) (addr : String) (r r' : Option CmdErr)
    (out out' : String) (e e' : String)
    (ht : validateTarget t = Except.error e)
    (ha : validateIPAddress addr = Except.error e') :
    performLogin t r = Except.error e ∧ performLogin t r = performLogin t r' ∧
    performLogout t r = Except.error e ∧ performLogout t r = performLogout t r' ∧
    CreateOrUpdateNode t opts r = Except.error e ∧
    CreateOrUpdateNode t opts r = CreateOrUpdateNode t opts r' ∧
    DeleteNode t r = Except.error e ∧ DeleteNode t r = DeleteNode t r' ∧
    discoverTargets addr r out = Except.error e' ∧
    discoverTargets addr r out = discoverTargets addr r' out' := by
  simp [performLogin, performLogout, CreateOrUpdateNode, DeleteNode,
    discoverTargets, ht, ha]

/-- Witness for C8: a target with an invalid portal and an empty address
produce the validation error regardless of an injected execution result. -/
theorem validation_precedes_execution_witness :
    performLogin ⟨"invalid", "", "iqn.1991-05.com.emc:dummyExample"⟩
        (some (CmdErr.exit 0)) = Except.error "error invalid IP or portal address" ∧
    discoverTargets "" (some (CmdErr.failure "tool missing")) "ignored" =
      Except.error "error invalid IP or portal address" := by
  have h := validation_precedes_execution
    ⟨"invalid", "", "iqn.1991-05.com.emc:dummyExample"⟩ [] ""
    (some (CmdErr.exit 0)) none "ignored" "" _ _ (by rfl) (by rfl)
  exact ⟨h.1, h.2.2.2.2.2.2.2.2.1⟩

/-- C9: because the IQN pattern is anchored only at the end of the string,
acceptance by `validateIQN` is closed under prepending arbitrary text. -/
theorem validateIQN_closed_under_prepending (p s : String)
    (h : validateIQN s = Except.ok ()) :
    validateIQN (p ++ s) = Except.ok () := by
  have hs : iqnAnywhere s.data = true := by
    by_contra hx
    have hb : iqnAnywhere s.data = false := by
      cases hq : iqnAnywhere s.data
      · rfl
      · exact absurd hq hx
    simp [validateIQN, hb] at h
  have h2 : iqnAnywhere (p.data ++ s.data) = true :=
    iqnAnywhere_append_left p.data s.data hs
  simp [validateIQN, String.data_append, h2]

/-- Witness for C9: leading garbage before a valid IQN passes
validation. -/
theorem validateIQN_closed_under_prepending_witness :
    validateIQN ("arbitrary leading garbage " ++ "iqn.1991-05.com.emc:dummyExample") =
      Except.ok () :=
  validateIQN_closed_under_prepending "arbitrary leading garbage "
    "iqn.1991-05.com.emc:dummyExample" (by rfl)

/-- C10: `validateIPAddress` accepts every string parsed by `net.ParseIP`,
the portal pattern being only a second, independent acceptance route (the
witness exercises the bare IPv6 literal `::1`, which only `net.ParseIP`
accepts). -/
theorem validateIPAddress_accepts_parsed (s : String)
    (h : (goParseIP s).isSome = true) :
    validateIPAddress s = Except.ok () := by
  unfold validateIPAddress
  rcases hg : goParseIP s with _ | v
  · rw [hg] at h
    exact absurd h (by simp)
  · simp [hg]

/-- Witness for C10 at the bare IPv6 literal `::1`. -/
theorem validateIPAddress_accepts_parsed_witness :
    validateIPAddress "::1" = Except.ok () :=
  validateIPAddress_accepts_parsed "::1" (by decide)

/-- The two-record session dump fixture, following the record format of
the spec: a record-start marker line carrying the Target/Portal pair,
followed by `key: value` field lines. -/
def sessionFixtureValid : String := String.intercalate "\n" [
  "iSCSI Transport Class version 2.0-870",
  "Target: iqn.2015-10.com.dell:dellemc-foobar-123-a-7ceb34a3 Portal: 192.168.1.1:3260",
  "  SID: 12",
  "  Iface Transport: tcp",
  "  Iface Initiatorname: iqn.1994-05.com.redhat:650e84b584d",
  "  Iface IPaddress: 1.1.1.1",
  "  iSCSI Session State: LOGGED_IN",
  "  iSCSI Connection State: LOGGED IN",
  "  username: admin",
  "  password: foobar",
  "Target: iqn.2015-10.com.dell:dellemc-foobar-123-b-61ecc53a Portal: 192.168.1.2:3260",
  "  SID: 13",
  "  Iface Transport: tcp",
  "  Iface Initiatorname: iqn.1994-05.com.redhat:650e84b585d",
  "  Iface IPaddress: 1.1.1.1",
  "  iSCSI Session State: FAILED",
  "  iSCSI Connection State: FREE"]

/-- C6: on the two-record session fixture the parser returns exactly two
sessions, in source order, with every field equal to the source text
field-for-field: targets ending `-a-7ceb34a3` and `-b-61ecc53a`, portals
`192.168.1.1:3260` and `192.168.1.2:3260`, SIDs `12` and `13`, transport
`tcp`, the first session `LOGGED_IN`/`LOGGED IN`, the second
`FAILED`/`FREE`. -/
theorem sessionParserParse_two_record_fixture :
    sessionParserParse sessionFixtureValid =
      [⟨"iqn.2015-10.com.dell:dellemc-foobar-123-a-7ceb34a3", "192.168.1.1:3260",
        "12", "tcp", "iqn.1994-05.com.redhat:650e84b584d", "1.1.1.1",
        "LOGGED_IN", "LOGGED IN", "admin", "foobar", "", ""⟩,
       ⟨"iqn.2015-10.com.dell:dellemc-foobar-123-b-61ecc53a", "192.168.1.2:3260",
        "13", "tcp", "iqn.1994-05.com.redhat:650e84b585d", "1.1.1.1",
        "FAILED", "FREE", "", "", "", ""⟩] := by
  decide

end Goiscsi
